import Mathlib

/-
  Shallow embedding of the teacup layout engine, translated from
  src/teacup/src/layout.rs.

  Conventions of the embedding:
  * i32 is modelled as Int (arithmetic overflow, which would panic in a
    debug build, is out of scope).
  * Rust division on i32 truncates toward zero; every division in the
    source is written here as Int.tdiv, which has the same rounding.
    Division by zero panics in Rust; the single division site is guarded
    and the guard returns none, modelling the panic.
  * Arc and Mutex disappear: the tree is a pure value, the child list is
    a List, and mutation through a shared handle becomes List.set at an
    index.  A lock in the source can only fail after a panic elsewhere;
    locks are modelled as always succeeding.
  * Vec.remove(i) panics when i is out of bounds; that is modelled by
    returning none.
  * The recursive tree passes take a Nat fuel argument and return none
    when it runs out; with fuel larger than the tree depth the fuelled
    function computes exactly what the Rust recursion computes.
  * The only Primative implementor in the source is Rectangle, whose
    as_container returns Some.  A pure leaf primitive (as_container
    returning None, the trait default) is modelled by the leaf
    constructor carrying the fields the Primative trait exposes.
-/

namespace Teacup

/-- SizingMode from layout.rs lines 70 to 76. -/
inductive SizingMode where
  | Fixed : Int → SizingMode
  | Fit : SizingMode
  | Grow : SizingMode
deriving Repr, DecidableEq

/-- Sizing from layout.rs lines 78 to 82. -/
structure Sizing where
  width : SizingMode := SizingMode.Fit
  height : SizingMode := SizingMode.Fit
deriving Repr, DecidableEq

/-- LayoutMode from layout.rs lines 96 to 101. -/
inductive LayoutMode where
  | TopToBottom : LayoutMode
  | LeftToRight : LayoutMode
deriving Repr, DecidableEq

/-- Axis from layout.rs lines 103 to 107. -/
inductive Axis where
  | Horizontal : Axis
  | Vertical : Axis
deriving Repr, DecidableEq

/-- The Not implementation for Axis, layout.rs lines 108 to 117. -/
def Axis.flip : Axis → Axis
  | .Horizontal => .Vertical
  | .Vertical => .Horizontal

/-- The fields of the Rectangle struct, layout.rs lines 241 to 256,
with the Rust Default values as field defaults.  The children list is
kept separately in the Node type so that the tree is an inductive. -/
structure RectData where
  width : Int := 0
  height : Int := 0
  min_width : Int := 0
  min_height : Int := 0
  max_width : Option Int := none
  max_height : Option Int := none
  position : Int × Int := (0, 0)
  layout_mode : LayoutMode := LayoutMode.LeftToRight
  sizing : Sizing := {}
  padding : Int := 0
  child_gap : Int := 0
deriving Repr, DecidableEq

/-- The state a pure leaf Primative exposes through the trait of
layout.rs lines 29 to 68: sizes, bounds and position. -/
structure LeafData where
  width : Int := 0
  height : Int := 0
  min_width : Int := 0
  min_height : Int := 0
  max_width : Option Int := none
  max_height : Option Int := none
  position : Int × Int := (0, 0)
deriving Repr, DecidableEq

/-- A tree node: either a pure leaf primitive (as_container returns
None) or a Rectangle, which is both a Primative and a Container. -/
inductive Node where
  | leaf : LeafData → Node
  | rect : RectData → List Node → Node

/-- Primative.get_width. -/
def Node.get_width : Node → Int
  | .leaf d => d.width
  | .rect d _ => d.width

/-- Primative.get_height. -/
def Node.get_height : Node → Int
  | .leaf d => d.height
  | .rect d _ => d.height

/-- Primative.get_min_width. -/
def Node.get_min_width : Node → Int
  | .leaf d => d.min_width
  | .rect d _ => d.min_width

/-- Primative.get_min_height. -/
def Node.get_min_height : Node → Int
  | .leaf d => d.min_height
  | .rect d _ => d.min_height

/-- Primative.get_max_width. -/
def Node.get_max_width : Node → Option Int
  | .leaf d => d.max_width
  | .rect d _ => d.max_width

/-- Primative.get_max_height. -/
def Node.get_max_height : Node → Option Int
  | .leaf d => d.max_height
  | .rect d _ => d.max_height

/-- Primative.set_width. -/
def Node.set_width : Node → Int → Node
  | .leaf d, w => .leaf { d with width := w }
  | .rect d cs, w => .rect { d with width := w } cs

/-- Primative.set_height. -/
def Node.set_height : Node → Int → Node
  | .leaf d, h => .leaf { d with height := h }
  | .rect d cs, h => .rect { d with height := h } cs

/-- Rectangle::get_size_along_axis, layout.rs lines 307 to 312. -/
def Node.get_size_along_axis (n : Node) (axis : Axis) : Int :=
  match axis with
  | .Horizontal => n.get_width
  | .Vertical => n.get_height

/-- Rectangle::set_size_along_axis, layout.rs lines 314 to 319. -/
def Node.set_size_along_axis (n : Node) (axis : Axis) (size : Int) : Node :=
  match axis with
  | .Horizontal => n.set_width size
  | .Vertical => n.set_height size

/-- Rectangle::get_min_along_axis, layout.rs lines 321 to 326. -/
def Node.get_min_along_axis (n : Node) (axis : Axis) : Int :=
  match axis with
  | .Horizontal => n.get_min_width
  | .Vertical => n.get_min_height

/-- Rectangle::get_max_along_axis, layout.rs lines 328 to 333. -/
def Node.get_max_along_axis (n : Node) (axis : Axis) : Option Int :=
  match axis with
  | .Horizontal => n.get_max_width
  | .Vertical => n.get_max_height

/-- Primative.get_position. -/
def Node.get_position : Node → Int × Int
  | .leaf d => d.position
  | .rect d _ => d.position

/-- Primative.set_position. -/
def Node.set_position : Node → Int × Int → Node
  | .leaf d, p => .leaf { d with position := p }
  | .rect d cs, p => .rect { d with position := p } cs

/-- Container size along an axis, the self.get_size_along_axis calls
inside grow_sizing. -/
def RectData.get_size_along_axis (d : RectData) (axis : Axis) : Int :=
  match axis with
  | .Horizontal => d.width
  | .Vertical => d.height

/-- Rectangle::get_sizing_along_axis, layout.rs lines 704 to 709. -/
def RectData.get_sizing_along_axis (d : RectData) (axis : Axis) : SizingMode :=
  match axis with
  | .Horizontal => d.sizing.width
  | .Vertical => d.sizing.height

/-- The matches macro on SizingMode::Grow. -/
def SizingMode.isGrow : SizingMode → Bool
  | .Grow => true
  | _ => false

/-- The filter body of the grow lists, layout.rs lines 487 to 497: the
child is kept when as_container returns Some and its sizing mode along
the axis is Grow.  Leaves return None from as_container. -/
def Node.growsAlong (n : Node) (axis : Axis) : Bool :=
  match n with
  | .leaf _ => false
  | .rect d _ => (d.get_sizing_along_axis axis).isGrow

/-- The axis selection at the top of fit_sizing and grow_sizing,
layout.rs lines 378 to 381 and 463 to 466. -/
def LayoutMode.mainAxis : LayoutMode → Axis
  | .TopToBottom => Axis.Vertical
  | .LeftToRight => Axis.Horizontal

/-- The mutable locals of the fit_sizing child loop, layout.rs lines
382 to 405: axis_size, off_axis_size, first and gap. -/
structure FitAcc where
  axis_size : Int
  off_axis_size : Int
  first : Bool
  gap : Int
deriving Repr, DecidableEq

/-- One iteration of the fit_sizing child loop, layout.rs lines 397 to
403, after the child has already been given its own size. -/
def fitStep (child_gap : Int) (axis : Axis) (acc : FitAcc) (child : Node) : FitAcc :=
  let a := acc.axis_size + child.get_size_along_axis axis + acc.gap
  let o := max acc.off_axis_size (child.get_size_along_axis axis.flip)
  if acc.first = false then
    { axis_size := a, off_axis_size := o, first := true, gap := child_gap }
  else
    { axis_size := a, off_axis_size := o, first := acc.first, gap := acc.gap }

/-- Resolution of one axis of the own size at the end of fit_sizing,
layout.rs lines 410 to 419 and the three analogous blocks: Fixed takes
the raw value, Fit and Grow take the accumulator raised to the minimum
and then cut at the maximum when one is set. -/
def resolveSizing (mode : SizingMode) (accum : Int) (minv : Int) (maxv : Option Int) : Int :=
  match mode with
  | .Fixed v => v
  | .Fit | .Grow =>
    let s := max accum minv
    match maxv with
    | some m => min s m
    | none => s

/-- The match on layout_mode at layout.rs lines 408 to 459 that routes
the two accumulators to width and height. -/
def fitResolve (d : RectData) (axis_size : Int) (off_axis_size : Int) : RectData :=
  match d.layout_mode with
  | .TopToBottom =>
    { d with
        width := resolveSizing d.sizing.width off_axis_size d.min_width d.max_width,
        height := resolveSizing d.sizing.height axis_size d.min_height d.max_height }
  | .LeftToRight =>
    { d with
        width := resolveSizing d.sizing.width axis_size d.min_width d.max_width,
        height := resolveSizing d.sizing.height off_axis_size d.min_height d.max_height }

/-- The initial loop state of the fit_sizing child loop, layout.rs
lines 382 to 385: axis_size starts at 2 * padding, off_axis_size at 0,
first at false and gap at 0. -/
def fitAcc0 (padding : Int) : FitAcc :=
  { axis_size := 2 * padding, off_axis_size := 0, first := false, gap := 0 }

/-- One level of Rectangle::fit_sizing, layout.rs lines 377 to 460,
applied to children that have already received their own fit sizes:
fold the accumulator loop over the children starting from fitAcc0, add
2 * padding to the off axis result (line 407), then resolve the own
width and height. -/
def fitLevel (d : RectData) (cs : List Node) : RectData :=
  let axis := d.layout_mode.mainAxis
  let acc := cs.foldl (fitStep d.child_gap axis) (fitAcc0 d.padding)
  fitResolve d acc.axis_size (acc.off_axis_size + 2 * d.padding)

/-- The else branch of the fit_sizing child loop for a leaf child,
layout.rs lines 390 to 394: both axes are set to the declared minimum. -/
def fitChildLeaf (d : LeafData) : LeafData :=
  { d with width := d.min_width, height := d.min_height }

/-- Sequentially visiting each child of a container with a fallible
visitor, as the child loops of the source do, collecting the updated
children in order. -/
def visitChildren (g : Node → Option Node) : List Node → Option (List Node)
  | [] => some []
  | c :: rest => do
    let c1 ← g c
    let rest1 ← visitChildren g rest
    some (c1 :: rest1)

/-- Rectangle::fit_sizing as a fuelled recursion over the tree: visit
every child first (a container child recurses, a leaf child adopts its
minimum on both axes, lines 386 to 395), then resolve the own size with
fitLevel.  Returns none only when the fuel is smaller than the tree
depth, a case with no Rust counterpart. -/
def fit_sizing : Nat → Node → Option Node
  | 0 => fun _ => none
  | fuel + 1 => fun n =>
    match n with
    | .leaf d => some (.leaf (fitChildLeaf d))
    | .rect d cs => do
      let cs1 ← visitChildren (fit_sizing fuel) cs
      some (.rect (fitLevel d cs1) cs1)

/-- The used_space sums in grow_sizing, layout.rs lines 468 to 478 and
590 to 600. -/
def usedSpace (cs : List Node) (axis : Axis) : Int :=
  (cs.map (fun c => c.get_size_along_axis axis)).sum

/-- Reading the size of the child at an index of the child list.  The
index plays the role of the Arc handle; every index the algorithm forms
is in range, the out of range default is arbitrary. -/
def sizeAt (cs : List Node) (i : Nat) (axis : Axis) : Int :=
  match cs.get? i with
  | some c => c.get_size_along_axis axis
  | none => 0

/-- Writing the size of the child at an index of the child list. -/
def setSizeAt (cs : List Node) (i : Nat) (axis : Axis) (v : Int) : List Node :=
  match cs.get? i with
  | some c => cs.set i (c.set_size_along_axis axis v)
  | none => cs

/-- The grow list membership test at an index, layout.rs lines 487 to
497. -/
def growsAlongAt (cs : List Node) (i : Nat) (axis : Axis) : Bool :=
  match cs.get? i with
  | some c => c.growsAlong axis
  | none => false

/-- The minimum of a list of sizes; the rayon min over an iterator,
layout.rs lines 506 to 516, with the empty case left to the caller. -/
def listMin : List Int → Option Int
  | [] => none
  | x :: xs => some (xs.foldl min x)

/-- The for loop computing second_smallest_size, layout.rs lines 544
to 556: fold the running minimum over the sizes of the children that
sit strictly above the current floor. -/
def secondSmallestFold (sizes : List Int) : Option Int :=
  sizes.foldl
    (fun acc size =>
      match acc with
      | some m => some (min size m)
      | none => some size)
    none

/-- The for loop over min_growing_list, layout.rs lines 575 to 589.
The first Nat is the enumerate counter i, the List Nat the child
indices of the tied set, then the child list and grow_list.  Each tied
child has its size raised to max (size + grow_step) min; when a maximum
is set and the new size reaches it, the size is clamped to the maximum
and grow_list.remove(i) is executed with i the enumerate index of the
tied list, which panics (none) when i is out of bounds of grow_list. -/
def updateTied (axis : Axis) (grow_step : Int) :
    Nat → List Nat → List Node → List Nat → Option (List Node × List Nat)
  | _, [], cs, gl => some (cs, gl)
  | i, idx :: rest, cs, gl =>
    match cs.get? idx with
    | none => updateTied axis grow_step (i + 1) rest cs gl
    | some c =>
      let prim_size := c.get_size_along_axis axis
      let prim_min_size := c.get_min_along_axis axis
      let prim_max_size := c.get_max_along_axis axis
      let new_size := max (prim_size + grow_step) prim_min_size
      let cs1 := cs.set idx (c.set_size_along_axis axis new_size)
      match prim_max_size with
      | some m =>
        if new_size ≥ m then
          let cs2 := cs1.set idx ((c.set_size_along_axis axis new_size).set_size_along_axis axis m)
          if i < gl.length then
            updateTied axis grow_step (i + 1) rest cs2 (gl.eraseIdx i)
          else
            none
        else
          updateTied axis grow_step (i + 1) rest cs1 gl
      | none => updateTied axis grow_step (i + 1) rest cs1 gl

/-- The body of one iteration of the grow_sizing while loop, layout.rs
lines 506 to 604: compute the smallest size over grow_list, split it
into the tied set (size at most the smallest) and the rest (size
strictly above), fold the second smallest size over the rest, compute
grow_step, update the tied children, then recompute used_space and
remaining_space (this recomputation cuts len - 1 from below at 0,
unlike the initial one).  The division remaining / tied size panics in
Rust when the tied set is empty, modelled by the guarded none; the
guard is provably dead because the tied set of a nonempty grow_list is
nonempty.  The none from updateTied propagates the Vec::remove panic. -/
def growIter (d : RectData) (axis : Axis) (cs : List Node) (gl : List Nat) (remaining : Int) :
    Option (List Node × List Nat × Int) :=
  let smallest_size := (listMin (gl.map (fun i => sizeAt cs i axis))).getD 0
  let min_growing_list := gl.filter (fun i => sizeAt cs i axis ≤ smallest_size)
  let filtered := gl.filter (fun i => sizeAt cs i axis > smallest_size)
  let second_smallest_size := secondSmallestFold (filtered.map (fun i => sizeAt cs i axis))
  if min_growing_list.length = 0 then
    none
  else
    let grow_step :=
      match second_smallest_size with
      | some s => min (s - smallest_size) (Int.tdiv remaining (min_growing_list.length : Int))
      | none => Int.tdiv remaining (min_growing_list.length : Int)
    match updateTied axis grow_step 0 min_growing_list cs gl with
    | none => none
    | some (cs1, gl1) =>
      let used_space := usedSpace cs1 axis
      let remaining1 := d.get_size_along_axis axis - d.padding * 2
        - d.child_gap * (max ((cs1.length : Int) - 1) 0) - used_space
      some (cs1, gl1, remaining1)

/-- The while loop of grow_sizing, layout.rs lines 503 to 605, with the
depth counter as the structural fuel: the source initialises depth to
grow_list.len() + 1, decrements it at the top of each iteration and
exits when it reaches zero, when remaining_space stops being positive,
or when grow_list becomes empty. -/
def growLoop (d : RectData) (axis : Axis) :
    Nat → List Node → List Nat → Int → Option (List Node × List Nat × Int)
  | 0, cs, gl, remaining => some (cs, gl, remaining)
  | depth + 1, cs, gl, remaining =>
    if remaining > 0 ∧ gl ≠ [] then
      match growIter d axis cs gl remaining with
      | none => none
      | some (cs1, gl1, remaining1) => growLoop d axis depth cs1 gl1 remaining1
    else
      some (cs, gl, remaining)

/-- One level of Rectangle::grow_sizing, layout.rs lines 462 to 630,
without the final recursion into the children: compute used_space and
remaining_space (the initial remaining at lines 479 to 482 multiplies
child_gap by len - 1 without a lower cut, unlike the recomputation
inside the loop), build grow_list as the indices of the container
children growing along the main axis, run the water filling loop, then
stretch the container children growing along the cross axis to the own
cross size minus 2 * padding. -/
def growLevel (d : RectData) (cs : List Node) : Option (List Node) :=
  let axis := d.layout_mode.mainAxis
  let used_space := usedSpace cs axis
  let remaining_space := d.get_size_along_axis axis - d.padding * 2
    - d.child_gap * ((cs.length : Int) - 1) - used_space
  let grow_list := (List.range cs.length).filter (fun i => growsAlongAt cs i axis)
  match growLoop d axis (grow_list.length + 1) cs grow_list remaining_space with
  | none => none
  | some (cs1, _, _) =>
    let grow_list_cross := (List.range cs1.length).filter (fun i => growsAlongAt cs1 i axis.flip)
    let off_axis_size := d.get_size_along_axis axis.flip - 2 * d.padding
    some (grow_list_cross.foldl (fun acc i => setSizeAt acc i axis.flip off_axis_size) cs1)

/-- Rectangle::grow_sizing as a fuelled recursion: one growLevel on the
own children, then the loop at layout.rs lines 632 to 638 recurses into
each child that is a container; a leaf child is left untouched. -/
def grow_sizing : Nat → Node → Option Node
  | 0 => fun _ => none
  | fuel + 1 => fun n =>
    match n with
    | .leaf d => some (.leaf d)
    | .rect d cs => do
      let cs1 ← growLevel d cs
      let cs2 ← visitChildren (grow_sizing fuel) cs1
      some (.rect d cs2)

/-- Advancing the child_position cursor along the main axis, layout.rs
lines 651 and 667. -/
def bumpMain (axis : Axis) (cursor : Int × Int) (amount : Int) : Int × Int :=
  match axis with
  | .Horizontal => (cursor.1 + amount, cursor.2)
  | .Vertical => (cursor.1, cursor.2 + amount)

/-- The as_container dispatch inside the position loop, layout.rs
lines 653 to 655: recurse into a container child, keep a leaf child. -/
def visitChild (recurse : Node → Option Node) (c1 : Node) : Option Node :=
  match c1 with
  | .leaf d => some (Node.leaf d)
  | .rect _ _ => recurse c1

/-- The child loop of set_child_positions, layout.rs lines 648 to 657
and 664 to 673: set the position of each child to the cursor, advance
the cursor by the child size along the main axis plus child_gap, and
recurse into the child when it is a container.  The recurse argument is
the fuelled recursion one level down. -/
def posWalk (recurse : Node → Option Node) (axis : Axis) (child_gap : Int) :
    (Int × Int) → List Node → Option (List Node)
  | _, [] => some []
  | cursor, c :: rest => do
    let c1 := c.set_position cursor
    let cursor1 := bumpMain axis cursor (c1.get_size_along_axis axis + child_gap)
    let c2 ← visitChild recurse c1
    let rest1 ← posWalk recurse axis child_gap cursor1 rest
    some (c2 :: rest1)

/-- Rectangle::set_child_positions, layout.rs lines 641 to 676, as a
fuelled recursion: the cursor starts at the own position shifted by
padding on both coordinates, then walks the children along the main
axis. -/
def set_child_positions : Nat → Node → Option Node
  | 0 => fun _ => none
  | fuel + 1 => fun n =>
    match n with
    | .leaf d => some (.leaf d)
    | .rect d cs => do
      let cs1 ← posWalk (set_child_positions fuel) d.layout_mode.mainAxis d.child_gap
        (d.position.1 + d.padding, d.position.2 + d.padding) cs
      some (.rect d cs1)

/-- UI::grow_root, layout.rs lines 192 to 203: on each axis whose own
sizing mode is Grow the root size is overwritten with the viewport
dimension; the root is a Rectangle, whose as_primative returns Some.
Other axes are untouched. -/
def grow_root (viewport : Int × Int) : Node → Node
  | .leaf d => .leaf d
  | .rect d cs =>
    let d1 :=
      match d.sizing.width with
      | SizingMode.Grow => { d with width := viewport.1 }
      | _ => d
    let d2 :=
      match d1.sizing.height with
      | SizingMode.Grow => { d1 with height := viewport.2 }
      | _ => d1
    Node.rect d2 cs

/-- UI::compute_layout, layout.rs lines 183 to 190: fit pass, root
forcing, grow pass, position pass, in that order. -/
def compute_layout (fuel : Nat) (viewport : Int × Int) (root : Node) : Option Node := do
  let r1 ← fit_sizing fuel root
  let r2 := grow_root viewport r1
  let r3 ← grow_sizing fuel r2
  set_child_positions fuel r3

/-- The children of a node; a leaf has none. -/
def Node.childrenOf : Node → List Node
  | .leaf _ => []
  | .rect _ cs => cs

/-- Position along an axis: Horizontal reads the first coordinate. -/
def positionAlong (p : Int × Int) (axis : Axis) : Int :=
  match axis with
  | .Horizontal => p.1
  | .Vertical => p.2

/-- Container minimum along an axis, as Rectangle::get_min_along_axis
reads it from the same fields. -/
def RectData.get_min_along_axis (d : RectData) (axis : Axis) : Int :=
  match axis with
  | .Horizontal => d.min_width
  | .Vertical => d.min_height

/-- Container maximum along an axis, as Rectangle::get_max_along_axis
reads it from the same fields. -/
def RectData.get_max_along_axis (d : RectData) (axis : Axis) : Option Int :=
  match axis with
  | .Horizontal => d.max_width
  | .Vertical => d.max_height

/-- The maximum of a list of sizes, empty list giving none. -/
def listMax : List Int → Option Int
  | [] => none
  | x :: xs => some (xs.foldl max x)

/-- Modelled from the spec, for comparison with the code: the words of
the spec say the cross axis accumulator equals the maximum over the
children of the child size along the cross axis, plus twice the
padding. -/
def specCrossAccum (padding : Int) (cross : Axis) (cs : List Node) : Option Int :=
  (listMax (cs.map (fun c => c.get_size_along_axis cross))).map (fun m => m + 2 * padding)

/-- Iteration counter for the grow_sizing while loop: the same control
flow as growLoop, returning how many times the loop body is entered
instead of the final state. -/
def growLoopSteps (d : RectData) (axis : Axis) :
    Nat → List Node → List Nat → Int → Nat
  | 0, _, _, _ => 0
  | depth + 1, cs, gl, remaining =>
    if remaining > 0 ∧ gl ≠ [] then
      match growIter d axis cs gl remaining with
      | none => 1
      | some (cs1, gl1, remaining1) => 1 + growLoopSteps d axis depth cs1 gl1 remaining1
    else 0

/-- Iteration count of the while loop inside one Rectangle::grow_sizing
call: the loop is entered with depth = grow_list.len() + 1 and the
initial remaining_space of layout.rs lines 479 to 482. -/
def growLevelSteps (d : RectData) (cs : List Node) : Nat :=
  let axis := d.layout_mode.mainAxis
  let used_space := usedSpace cs axis
  let remaining_space := d.get_size_along_axis axis - d.padding * 2
    - d.child_gap * ((cs.length : Int) - 1) - used_space
  let grow_list := (List.range cs.length).filter (fun i => growsAlongAt cs i axis)
  growLoopSteps d axis (grow_list.length + 1) cs grow_list remaining_space

/-- The clamp invariant on one axis of one node: whenever the declared
bounds are coherent (no maximum, or minimum at most maximum), the size
lies between them. -/
def axisClampOK (minv : Int) (maxv : Option Int) (size : Int) : Bool :=
  match maxv with
  | some m => if minv ≤ m then decide (minv ≤ size) && decide (size ≤ m) else true
  | none => decide (minv ≤ size)

/-- The clamp invariant on a node: it holds on every axis of a leaf,
and on every axis of a container whose sizing mode there is Fit or
Grow; a Fixed axis carries the fixed value without any clamp and is
exempt. -/
def nodeClampOK : Node → Bool
  | .leaf d =>
    axisClampOK d.min_width d.max_width d.width &&
    axisClampOK d.min_height d.max_height d.height
  | .rect d _ =>
    (match d.sizing.width with
     | .Fixed _ => true
     | _ => axisClampOK d.min_width d.max_width d.width) &&
    (match d.sizing.height with
     | .Fixed _ => true
     | _ => axisClampOK d.min_height d.max_height d.height)

/-- A fuelled check that a predicate holds at every node of a tree,
aligned with the fuel of the tree passes. -/
def allNodesB (p : Node → Bool) : Nat → Node → Bool
  | 0, _ => false
  | _ + 1, .leaf d => p (.leaf d)
  | fuel + 1, .rect d cs => p (.rect d cs) && cs.all (allNodesB p fuel)

/-- The tree of the end to end example of the spec: a root growing on
both axes with padding 16 and child_gap 16, holding three children that
grow on both axes with no constraints. -/
def c4child : Node :=
  .rect { sizing := { width := SizingMode.Grow, height := SizingMode.Grow } } []

/-- The example root before layout. -/
def c4root : Node :=
  .rect
    { sizing := { width := SizingMode.Grow, height := SizingMode.Grow },
      padding := 16, child_gap := 16 }
    [c4child, c4child, c4child]

/-- The example root data after fit and root forcing to (800, 600). -/
def c4forcedD : RectData :=
  { width := 800, height := 600,
    sizing := { width := SizingMode.Grow, height := SizingMode.Grow },
    padding := 16,
    child_gap := 16 }

/-- The example tree after the fit pass. -/
def c4fitted : Node :=
  .rect
    { width := 64, height := 32,
      sizing := { width := SizingMode.Grow, height := SizingMode.Grow },
      padding := 16, child_gap := 16 }
    [c4child, c4child, c4child]

/-- The example tree after root forcing. -/
def c4forced : Node := .rect c4forcedD [c4child, c4child, c4child]

/-- One example child after the grow pass: width 245, height 568. -/
def c4grownChild : Node :=
  .rect
    { width := 245, height := 568,
      sizing := { width := SizingMode.Grow, height := SizingMode.Grow } }
    []

/-- The example tree after the grow pass. -/
def c4grown : Node := .rect c4forcedD [c4grownChild, c4grownChild, c4grownChild]

/-- One example child after the position pass. -/
def c4finalChild (x : Int) : Node :=
  .rect
    { width := 245, height := 568, position := (x, 16),
      sizing := { width := SizingMode.Grow, height := SizingMode.Grow } }
    []

/-- The example tree after all passes. -/
def c4final : Node := .rect c4forcedD [c4finalChild 16, c4finalChild 277, c4finalChild 538]

/-! Basic lemmas about the node accessors. -/

theorem get_size_set_size_same (n : Node) (a : Axis) (v : Int) :
    (n.set_size_along_axis a v).get_size_along_axis a = v := by
  cases n <;> cases a <;> rfl

theorem get_size_set_size_other (n : Node) (a b : Axis) (v : Int) (h : a ≠ b) :
    (n.set_size_along_axis a v).get_size_along_axis b = n.get_size_along_axis b := by
  cases n <;> cases a <;> cases b <;> first | rfl | exact absurd rfl h

theorem get_min_set_size (n : Node) (a b : Axis) (v : Int) :
    (n.set_size_along_axis a v).get_min_along_axis b = n.get_min_along_axis b := by
  cases n <;> cases a <;> cases b <;> rfl

theorem get_max_set_size (n : Node) (a b : Axis) (v : Int) :
    (n.set_size_along_axis a v).get_max_along_axis b = n.get_max_along_axis b := by
  cases n <;> cases a <;> cases b <;> rfl

theorem growsAlong_set_size (n : Node) (a b : Axis) (v : Int) :
    (n.set_size_along_axis a v).growsAlong b = n.growsAlong b := by
  cases n <;> cases a <;> cases b <;> rfl

theorem flip_ne (a : Axis) : a.flip ≠ a := by
  cases a <;> simp [Axis.flip]

theorem listMin_eq_min? (l : List Int) : listMin l = l.min? := by
  cases l <;> rfl

theorem listMin_spec {l : List Int} {m : Int} (h : listMin l = some m) :
    m ∈ l ∧ ∀ y ∈ l, m ≤ y := by
  rw [listMin_eq_min?] at h
  refine ⟨List.min?_mem min_choice h, ?_⟩
  intro y hy
  exact (List.le_min?_iff (fun a b c : Int => le_min_iff) h).mp (le_refl m) y hy

/-- C8: in the grow distribution the divisions remaining divided by the
tied count are never evaluated with an empty tied set: whenever the
grow list is nonempty, the filter keeping the children whose size is at
most the smallest size over the grow list is nonempty, because the
minimum is attained by a member. -/
theorem c8_tied_nonempty (cs : List Node) (gl : List Nat) (axis : Axis) (h : gl ≠ []) :
    gl.filter (fun i => sizeAt cs i axis ≤
      (listMin (gl.map (fun i => sizeAt cs i axis))).getD 0) ≠ [] := by
  obtain ⟨g, gs, rfl⟩ : ∃ g gs, gl = g :: gs := by
    cases gl with
    | nil => exact absurd rfl h
    | cons g gs => exact ⟨g, gs, rfl⟩
  obtain ⟨m, hm⟩ : ∃ m, listMin ((g :: gs).map (fun i => sizeAt cs i axis)) = some m :=
    ⟨_, rfl⟩
  obtain ⟨hmem, hle⟩ := listMin_spec hm
  rw [List.mem_map] at hmem
  obtain ⟨j, hj, hjm⟩ := hmem
  intro hcon
  have : j ∈ List.filter (fun i => decide (sizeAt cs i axis ≤
      (listMin ((g :: gs).map (fun i => sizeAt cs i axis))).getD 0)) (g :: gs) := by
    rw [List.mem_filter]
    refine ⟨hj, ?_⟩
    rw [hm]
    simp [hjm]
  rw [hcon] at this
  exact absurd this (List.not_mem_nil j)

/-- C8 witness at a concrete input. -/
theorem c8_tied_nonempty_witness :
    ([0, 1] : List Nat) ≠ [] ∧
      ([0, 1].filter (fun i =>
        sizeAt [Node.leaf { width := 7 }, Node.leaf { width := 3 }] i Axis.Horizontal ≤
          (listMin ([0, 1].map (fun i =>
            sizeAt [Node.leaf { width := 7 }, Node.leaf { width := 3 }] i Axis.Horizontal))).getD 0)
        ≠ []) :=
  ⟨by decide, c8_tied_nonempty [Node.leaf { width := 7 }, Node.leaf { width := 3 }]
    [0, 1] Axis.Horizontal (by decide)⟩

/-! Preservation of untouched children through the grow machinery. -/

theorem setSizeAt_get_ne (cs : List Node) (i : Nat) (axis : Axis) (v : Int)
    (j : Nat) (h : j ≠ i) : (setSizeAt cs i axis v).get? j = cs.get? j := by
  unfold setSizeAt
  cases hi : cs.get? i with
  | none => rfl
  | some c =>
    simp only [List.get?_eq_getElem?]
    exact List.getElem?_set_ne (fun he => h he.symm)

theorem set_get_ne (cs : List Node) (i : Nat) (c : Node) (j : Nat) (h : j ≠ i) :
    (cs.set i c).get? j = cs.get? j := by
  simp only [List.get?_eq_getElem?]
  exact List.getElem?_set_ne (fun he => h he.symm)

theorem updateTied_preserve (axis : Axis) (step : Int) :
    ∀ (tied : List Nat) (i : Nat) (cs : List Node) (gl : List Nat)
      (out : List Node × List Nat),
      updateTied axis step i tied cs gl = some out →
      (∀ j, j ∉ tied → out.1.get? j = cs.get? j) ∧ (∀ x ∈ out.2, x ∈ gl)
  | [], i, cs, gl, out => by
    intro h
    simp only [updateTied] at h
    cases h
    exact ⟨fun j _ => rfl, fun x hx => hx⟩
  | idx :: rest, i, cs, gl, out => by
    intro h
    simp only [updateTied] at h
    split at h
    · obtain ⟨hpres, hsub⟩ := updateTied_preserve axis step rest (i + 1) cs gl out h
      exact ⟨fun j hj => hpres j (fun hr => hj (List.mem_cons_of_mem idx hr)), hsub⟩
    · rename_i c hidx
      split at h
      · rename_i m hmax
        split at h
        · split at h
          · obtain ⟨hpres, hsub⟩ := updateTied_preserve axis step rest (i + 1) _ _ out h
            refine ⟨fun j hj => ?_, fun x hx => List.eraseIdx_subset gl i (hsub x hx)⟩
            rw [hpres j (fun hr => hj (List.mem_cons_of_mem idx hr))]
            rw [set_get_ne _ idx _ j (fun he => hj (he ▸ List.mem_cons_self idx rest))]
            exact set_get_ne cs idx _ j (fun he => hj (he ▸ List.mem_cons_self idx rest))
          · exact absurd h (by simp)
        · obtain ⟨hpres, hsub⟩ := updateTied_preserve axis step rest (i + 1) _ gl out h
          refine ⟨fun j hj => ?_, hsub⟩
          rw [hpres j (fun hr => hj (List.mem_cons_of_mem idx hr))]
          exact set_get_ne cs idx _ j (fun he => hj (he ▸ List.mem_cons_self idx rest))
      · obtain ⟨hpres, hsub⟩ := updateTied_preserve axis step rest (i + 1) _ gl out h
        refine ⟨fun j hj => ?_, hsub⟩
        rw [hpres j (fun hr => hj (List.mem_cons_of_mem idx hr))]
        exact set_get_ne cs idx _ j (fun he => hj (he ▸ List.mem_cons_self idx rest))

theorem growIter_preserve (d : RectData) (axis : Axis) (cs : List Node) (gl : List Nat)
    (r : Int) (out : List Node × List Nat × Int)
    (h : growIter d axis cs gl r = some out) :
    (∀ j, j ∉ gl → out.1.get? j = cs.get? j) ∧ (∀ x ∈ out.2.1, x ∈ gl) := by
  simp only [growIter] at h
  split at h
  · exact absurd h (by simp)
  · set tied := gl.filter (fun i => sizeAt cs i axis ≤
      (listMin (gl.map (fun i => sizeAt cs i axis))).getD 0) with htied
    rcases hup : updateTied axis
        (match secondSmallestFold ((gl.filter (fun i =>
            sizeAt cs i axis > (listMin (gl.map (fun i => sizeAt cs i axis))).getD 0)).map
            (fun i => sizeAt cs i axis)) with
          | some s => min (s - (listMin (gl.map (fun i => sizeAt cs i axis))).getD 0)
              (Int.tdiv r (tied.length : Int))
          | none => Int.tdiv r (tied.length : Int)) 0 tied cs gl with
      hnone | ⟨cs1, gl1⟩
    · rw [hup] at h
      exact absurd h (by simp)
    · rw [hup] at h
      cases h
      obtain ⟨hpres, hsub⟩ := updateTied_preserve axis _ tied 0 cs gl (cs1, gl1) hup
      refine ⟨fun j hj => hpres j (fun hmem => ?_), hsub⟩
      rw [htied] at hmem
      exact hj (List.mem_of_mem_filter hmem)

theorem growLoop_preserve (d : RectData) (axis : Axis) :
    ∀ (fuel : Nat) (cs : List Node) (gl : List Nat) (r : Int)
      (out : List Node × List Nat × Int),
      growLoop d axis fuel cs gl r = some out →
      ∀ j, j ∉ gl → out.1.get? j = cs.get? j
  | 0, cs, gl, r, out => by
    intro h j hj
    simp only [growLoop] at h
    cases h
    rfl
  | fuel + 1, cs, gl, r, out => by
    intro h j hj
    simp only [growLoop] at h
    split at h
    · split at h
      · exact absurd h (by simp)
      · rename_i cs1 gl1 r1 hit
        obtain ⟨hpres, hsub⟩ := growIter_preserve d axis cs gl r (cs1, gl1, r1) hit
        have hj1 : j ∉ gl1 := fun hmem => hj (hsub j hmem)
        rw [growLoop_preserve d axis fuel cs1 gl1 r1 out h j hj1]
        exact hpres j hj
    · cases h
      rfl

theorem foldl_setSize_preserve (axis : Axis) (v : Int) :
    ∀ (idxs : List Nat) (cs : List Node) (j : Nat), j ∉ idxs →
      (idxs.foldl (fun acc i => setSizeAt acc i axis v) cs).get? j = cs.get? j
  | [], cs, j, _ => rfl
  | i :: rest, cs, j, hj => by
    simp only [List.foldl_cons]
    rw [foldl_setSize_preserve axis v rest (setSizeAt cs i axis v) j
      (fun hr => hj (List.mem_cons_of_mem i hr))]
    exact setSizeAt_get_ne cs i axis v j (fun he => hj (he ▸ List.mem_cons_self i rest))

theorem growsAlongAt_of_leaf {cs : List Node} {i : Nat} {l : LeafData} (a : Axis)
    (h : cs.get? i = some (Node.leaf l)) : growsAlongAt cs i a = false := by
  unfold growsAlongAt
  rw [h]
  rfl

/-- C10: within one grow pass over a container, a child that does not
expose container behavior is never touched: if the child at index i is
a leaf before Rectangle::grow_sizing runs on the container, it is still
exactly the same leaf, with the same width and height, afterwards, for
both the main axis distribution and the cross axis stretch. -/
theorem c10_leaf_preserved (d : RectData) (cs cs1 : List Node) (i : Nat) (l : LeafData)
    (hrun : growLevel d cs = some cs1) (hleaf : cs.get? i = some (Node.leaf l)) :
    cs1.get? i = some (Node.leaf l) := by
  simp only [growLevel] at hrun
  have higl : i ∉ (List.range cs.length).filter
      (fun j => growsAlongAt cs j d.layout_mode.mainAxis) := by
    intro hmem
    have := List.of_mem_filter hmem
    rw [growsAlongAt_of_leaf d.layout_mode.mainAxis hleaf] at this
    exact absurd this (by simp)
  split at hrun
  · exact absurd hrun (by simp)
  · rename_i csA glA rA hloop
    have hA : csA.get? i = some (Node.leaf l) := by
      rw [growLoop_preserve d d.layout_mode.mainAxis _ cs _ _ (csA, glA, rA) hloop i higl]
      exact hleaf
    have higl2 : i ∉ (List.range csA.length).filter
        (fun j => growsAlongAt csA j d.layout_mode.mainAxis.flip) := by
      intro hmem
      have := List.of_mem_filter hmem
      rw [growsAlongAt_of_leaf d.layout_mode.mainAxis.flip hA] at this
      exact absurd this (by simp)
    cases hrun
    rw [foldl_setSize_preserve d.layout_mode.mainAxis.flip _ _ csA i higl2]
    exact hA

/-- C10 witness at a concrete input: a container with one growable
container child and one leaf child; the leaf keeps its sizes. -/
theorem c10_leaf_preserved_witness :
    growLevel { width := 50, layout_mode := LayoutMode.LeftToRight }
        [Node.rect { sizing := { width := SizingMode.Grow } } [],
          Node.leaf { width := 9, height := 4 }] =
      some [Node.rect { width := 41, sizing := { width := SizingMode.Grow } } [],
        Node.leaf { width := 9, height := 4 }] ∧
    ([Node.rect { width := 41, sizing := { width := SizingMode.Grow } } [],
        Node.leaf { width := 9, height := 4 }] : List Node).get? 1 =
      some (Node.leaf { width := 9, height := 4 }) := by
  constructor
  · rfl
  · exact c10_leaf_preserved { width := 50, layout_mode := LayoutMode.LeftToRight }
      [Node.rect { sizing := { width := SizingMode.Grow } } [],
        Node.leaf { width := 9, height := 4 }]
      [Node.rect { width := 41, sizing := { width := SizingMode.Grow } } [],
        Node.leaf { width := 9, height := 4 }] 1 { width := 9, height := 4 }
      (by rfl) (by rfl)

/-! Lemmas for the position pass. -/

theorem get_size_set_position (n : Node) (p : Int × Int) (a : Axis) :
    (n.set_position p).get_size_along_axis a = n.get_size_along_axis a := by
  cases n <;> cases a <;> rfl

theorem get_position_set_position (n : Node) (p : Int × Int) :
    (n.set_position p).get_position = p := by
  cases n <;> rfl

theorem positionAlong_bump_same (axis : Axis) (p : Int × Int) (amt : Int) :
    positionAlong (bumpMain axis p amt) axis = positionAlong p axis + amt := by
  cases axis <;> rfl

theorem positionAlong_bump_flip (axis : Axis) (p : Int × Int) (amt : Int) :
    positionAlong (bumpMain axis p amt) axis.flip = positionAlong p axis.flip := by
  cases axis <;> rfl

theorem positionAlong_pad (q : Int × Int) (p : Int) (axis : Axis) :
    positionAlong (q.1 + p, q.2 + p) axis = positionAlong q axis + p := by
  cases axis <;> rfl

theorem set_child_positions_preserve :
    ∀ (fuel : Nat) (n r : Node), set_child_positions fuel n = some r →
      r.get_position = n.get_position ∧
      ∀ a, r.get_size_along_axis a = n.get_size_along_axis a
  | 0, n, r => by intro h; exact Option.noConfusion h
  | fuel + 1, .leaf d, r => by
    intro h
    simp only [set_child_positions] at h
    cases h
    exact ⟨rfl, fun a => rfl⟩
  | fuel + 1, .rect d cs, r => by
    intro h
    simp only [set_child_positions] at h
    cases hpw : posWalk (set_child_positions fuel) d.layout_mode.mainAxis d.child_gap
        (d.position.1 + d.padding, d.position.2 + d.padding) cs with
    | none => rw [hpw] at h; exact Option.noConfusion h
    | some cs1 =>
      rw [hpw] at h
      cases h
      exact ⟨rfl, fun a => rfl⟩

theorem posWalk_spec (recurse : Node → Option Node) (axis : Axis) (gap : Int)
    (Hrec : ∀ c r, recurse c = some r → r.get_position = c.get_position ∧
      ∀ a, r.get_size_along_axis a = c.get_size_along_axis a) :
    ∀ (cs : List Node) (cursor : Int × Int) (out : List Node),
      posWalk recurse axis gap cursor cs = some out →
      out.length = cs.length ∧
      (∀ c0, out.get? 0 = some c0 → c0.get_position = cursor) ∧
      (∀ i ci ci1, out.get? i = some ci → out.get? (i + 1) = some ci1 →
        positionAlong ci1.get_position axis =
          positionAlong ci.get_position axis + ci.get_size_along_axis axis + gap) ∧
      (∀ i ci, out.get? i = some ci →
        positionAlong ci.get_position axis.flip = positionAlong cursor axis.flip)
  | [], cursor, out => by
    intro h
    simp only [posWalk] at h
    cases h
    refine ⟨rfl, ?_, ?_, ?_⟩
    · intro c0 h0
      exact Option.noConfusion h0
    · intro i ci ci1 hi hi1
      exact Option.noConfusion (List.get?_nil ▸ hi)
    · intro i ci hi
      exact Option.noConfusion (List.get?_nil ▸ hi)
  | c :: rest, cursor, out => by
    intro h
    simp only [posWalk] at h
    cases hc2 : visitChild recurse (c.set_position cursor) with
    | none => rw [hc2] at h; exact Option.noConfusion h
    | some c2 =>
      rw [hc2] at h
      cases hrest : posWalk recurse axis gap
          (bumpMain axis cursor ((c.set_position cursor).get_size_along_axis axis + gap))
          rest with
      | none => rw [hrest] at h; exact Option.noConfusion h
      | some rest1 =>
        rw [hrest] at h
        cases h
        have hvc : ∀ n r, visitChild recurse n = some r → r.get_position = n.get_position ∧
            ∀ a, r.get_size_along_axis a = n.get_size_along_axis a := by
          intro n r hr
          cases n with
          | leaf d =>
            simp only [visitChild] at hr
            cases hr
            exact ⟨rfl, fun a => rfl⟩
          | rect dd dcs =>
            simp only [visitChild] at hr
            exact Hrec _ _ hr
        have hc2pos : c2.get_position = cursor := by
          rw [(hvc _ _ hc2).1, get_position_set_position]
        have hc2size : ∀ a, c2.get_size_along_axis a = c.get_size_along_axis a := by
          intro a
          rw [(hvc _ _ hc2).2 a, get_size_set_position]
        obtain ⟨ihlen, ihhead, ihrec, ihcross⟩ :=
          posWalk_spec recurse axis gap Hrec rest _ rest1 hrest
        refine ⟨by simp [ihlen], ?_, ?_, ?_⟩
        · intro c0 h0
          cases h0
          exact hc2pos
        · intro i ci ci1 hi hi1
          cases i with
          | zero =>
            cases hi
            cases hr0 : rest1.get? 0 with
            | none => rw [List.get?_cons_succ] at hi1; rw [hr0] at hi1; cases hi1
            | some r0 =>
              rw [List.get?_cons_succ] at hi1
              rw [hr0] at hi1
              cases hi1
              rw [ihhead ci1 hr0]
              rw [positionAlong_bump_same, get_size_set_position, hc2pos, hc2size axis]
              ring
          | succ i' =>
            rw [List.get?_cons_succ] at hi hi1
            exact ihrec i' ci ci1 hi hi1
        · intro i ci hi
          cases i with
          | zero =>
            cases hi
            rw [hc2pos]
          | succ i' =>
            rw [List.get?_cons_succ] at hi
            rw [ihcross i' ci hi, positionAlong_bump_flip]

/-- C6: after the position pass on a container, the first child sits at
the container position shifted by padding on both coordinates, each
later child sits one main axis step further (previous child position
plus previous child size plus child_gap), and every child shares the
cross axis coordinate, the container cross position plus padding; the
main axis is Horizontal for LeftToRight and Vertical for TopToBottom. -/
theorem c6_position_tiling (fuel : Nat) (d : RectData) (cs : List Node) (r : Node)
    (h : set_child_positions fuel (Node.rect d cs) = some r) :
    (∀ c0, r.childrenOf.get? 0 = some c0 →
      c0.get_position = (d.position.1 + d.padding, d.position.2 + d.padding)) ∧
    (∀ i ci ci1, r.childrenOf.get? i = some ci → r.childrenOf.get? (i + 1) = some ci1 →
      positionAlong ci1.get_position d.layout_mode.mainAxis =
        positionAlong ci.get_position d.layout_mode.mainAxis +
          ci.get_size_along_axis d.layout_mode.mainAxis + d.child_gap) ∧
    (∀ i ci, r.childrenOf.get? i = some ci →
      positionAlong ci.get_position d.layout_mode.mainAxis.flip =
        positionAlong d.position d.layout_mode.mainAxis.flip + d.padding) := by
  cases fuel with
  | zero => exact Option.noConfusion h
  | succ fuel =>
    simp only [set_child_positions] at h
    cases hpw : posWalk (set_child_positions fuel) d.layout_mode.mainAxis d.child_gap
        (d.position.1 + d.padding, d.position.2 + d.padding) cs with
    | none => rw [hpw] at h; exact Option.noConfusion h
    | some cs1 =>
      rw [hpw] at h
      cases h
      obtain ⟨_, hhead, hrec, hcross⟩ := posWalk_spec (set_child_positions fuel)
        d.layout_mode.mainAxis d.child_gap
        (fun c r hr => set_child_positions_preserve fuel c r hr) cs _ cs1 hpw
      refine ⟨hhead, hrec, ?_⟩
      intro i ci hi
      rw [hcross i ci hi, positionAlong_pad]

/-- C6 witness at a concrete input: a LeftToRight container at position
(10, 20) with padding 2 and gap 5 and two leaf children of widths 7 and
4; the children land at (12, 22) and (24, 22). -/
theorem c6_position_tiling_witness :
    (Node.leaf { width := 7, height := 3, position := (12, 22) } : Node).get_position
        = (10 + 2, 20 + 2) ∧
    positionAlong (Node.leaf { width := 4, height := 6, position := (24, 22) }
        : Node).get_position Axis.Horizontal =
      positionAlong (Node.leaf { width := 7, height := 3, position := (12, 22) }
        : Node).get_position Axis.Horizontal + 7 + 5 ∧
    positionAlong (Node.leaf { width := 4, height := 6, position := (24, 22) }
        : Node).get_position Axis.Horizontal.flip = 20 + 2 := by
  have h := c6_position_tiling 1
    { position := (10, 20), padding := 2, child_gap := 5 }
    [Node.leaf { width := 7, height := 3 }, Node.leaf { width := 4, height := 6 }]
    (Node.rect { position := (10, 20), padding := 2, child_gap := 5 }
      [Node.leaf { width := 7, height := 3, position := (12, 22) },
        Node.leaf { width := 4, height := 6, position := (24, 22) }])
    (by rfl)
  refine ⟨h.1 _ (by rfl), ?_, ?_⟩
  · have := h.2.1 0 (Node.leaf { width := 7, height := 3, position := (12, 22) })
      (Node.leaf { width := 4, height := 6, position := (24, 22) }) (by rfl) (by rfl)
    simpa using this
  · have := h.2.2 1 (Node.leaf { width := 4, height := 6, position := (24, 22) }) (by rfl)
    simpa using this

/-! Lemmas for the clamp invariant of the fit pass. -/

theorem axisClampOK_clamp (accum minv : Int) (maxv : Option Int) :
    axisClampOK minv maxv
      (match maxv with
        | some m => min (max accum minv) m
        | none => max accum minv) = true := by
  cases maxv with
  | none => simp [axisClampOK, le_max_right]
  | some m =>
    simp only [axisClampOK]
    by_cases hm : minv ≤ m
    · rw [if_pos hm]
      simp [le_min (le_max_right accum minv) hm, min_le_right]
    · rw [if_neg hm]

theorem axisClampOK_min (minv : Int) (maxv : Option Int) :
    axisClampOK minv maxv minv = true := by
  cases maxv with
  | none => simp [axisClampOK]
  | some m =>
    simp only [axisClampOK]
    by_cases hm : minv ≤ m
    · rw [if_pos hm]
      simp [hm]
    · rw [if_neg hm]

theorem axisClampOK_resolve (mode : SizingMode) (accum minv : Int) (maxv : Option Int)
    (h : mode = SizingMode.Fit ∨ mode = SizingMode.Grow) :
    axisClampOK minv maxv (resolveSizing mode accum minv maxv) = true := by
  rcases h with h | h <;> subst h <;> exact axisClampOK_clamp accum minv maxv

theorem nodeClampOK_fitResolve (d : RectData) (a o : Int) (cs : List Node) :
    nodeClampOK (Node.rect (fitResolve d a o) cs) = true := by
  unfold fitResolve
  cases d.layout_mode <;>
  · simp only [nodeClampOK]
    rw [Bool.and_eq_true]
    constructor
    · cases hw : d.sizing.width with
      | Fixed v => simp
      | Fit => simpa using axisClampOK_resolve SizingMode.Fit _ d.min_width d.max_width (Or.inl rfl)
      | Grow => simpa using axisClampOK_resolve SizingMode.Grow _ d.min_width d.max_width (Or.inr rfl)
    · cases hh : d.sizing.height with
      | Fixed v => simp
      | Fit => simpa using axisClampOK_resolve SizingMode.Fit _ d.min_height d.max_height (Or.inl rfl)
      | Grow => simpa using axisClampOK_resolve SizingMode.Grow _ d.min_height d.max_height (Or.inr rfl)

theorem nodeClampOK_fitLevel (d : RectData) (cs cs1 : List Node) :
    nodeClampOK (Node.rect (fitLevel d cs) cs1) = true := by
  unfold fitLevel
  exact nodeClampOK_fitResolve d _ _ cs1

theorem nodeClampOK_fitChildLeaf (d : LeafData) :
    nodeClampOK (Node.leaf (fitChildLeaf d)) = true := by
  simp only [nodeClampOK, fitChildLeaf]
  rw [Bool.and_eq_true]
  exact ⟨axisClampOK_min d.min_width d.max_width, axisClampOK_min d.min_height d.max_height⟩

theorem visitChildren_mem (g : Node → Option Node) :
    ∀ (cs out : List Node), visitChildren g cs = some out →
      ∀ b ∈ out, ∃ a, g a = some b
  | [], out => by
    intro h b hb
    simp only [visitChildren] at h
    cases h
    exact absurd hb (List.not_mem_nil b)
  | c :: rest, out => by
    intro h b hb
    simp only [visitChildren] at h
    cases hg : g c with
    | none => rw [hg] at h; exact Option.noConfusion h
    | some c1 =>
      rw [hg] at h
      cases hrest : visitChildren g rest with
      | none => rw [hrest] at h; exact Option.noConfusion h
      | some rest1 =>
        rw [hrest] at h
        cases h
        rcases List.mem_cons.mp hb with hb | hb
        · exact ⟨c, hb ▸ hg⟩
        · exact visitChildren_mem g rest rest1 hrest b hb

/-- C2 amended: after the fit pass, on every node of the resulting
tree, every axis whose constraints are coherent (minimum at most
maximum, or no maximum) and whose sizing mode is Fit or Grow satisfies
minimum at most size, and size at most maximum when one is set; leaves,
whose fit size is their minimum, satisfy the same bounds.  Fixed axes
are exempt: the fit pass copies the fixed value without clamping. -/
theorem c2_fit_clamp : ∀ (fuel : Nat) (n r : Node), fit_sizing fuel n = some r →
    allNodesB nodeClampOK fuel r = true
  | 0, n, r => fun h => Option.noConfusion h
  | fuel + 1, .leaf d, r => by
    intro h
    simp only [fit_sizing] at h
    cases h
    simpa [allNodesB] using nodeClampOK_fitChildLeaf d
  | fuel + 1, .rect d cs, r => by
    intro h
    simp only [fit_sizing] at h
    cases hv : visitChildren (fit_sizing fuel) cs with
    | none => rw [hv] at h; exact Option.noConfusion h
    | some cs1 =>
      rw [hv] at h
      cases h
      simp only [allNodesB]
      rw [Bool.and_eq_true]
      constructor
      · exact nodeClampOK_fitLevel d cs1 cs1
      · rw [List.all_eq_true]
        intro b hb
        obtain ⟨a, ha⟩ := visitChildren_mem (fit_sizing fuel) cs cs1 hv b hb
        exact c2_fit_clamp fuel a b ha

/-- C2 amended witness at a concrete input: a container with one leaf
child and coherent bounds; the clamp invariant holds everywhere after
the fit pass. -/
theorem c2_fit_clamp_witness :
    fit_sizing 2 (Node.rect { min_width := 3, max_width := some 10 }
        [Node.leaf { min_width := 4, min_height := 2 }]) =
      some (Node.rect { width := 4, height := 2, min_width := 3, max_width := some 10 }
        [Node.leaf { width := 4, height := 2, min_width := 4, min_height := 2 }]) ∧
    allNodesB nodeClampOK 2
      (Node.rect { width := 4, height := 2, min_width := 3, max_width := some 10 }
        [Node.leaf { width := 4, height := 2, min_width := 4, min_height := 2 }]) = true :=
  ⟨by rfl, c2_fit_clamp 2 (Node.rect { min_width := 3, max_width := some 10 }
    [Node.leaf { min_width := 4, min_height := 2 }]) _ (by rfl)⟩

/-- C2 counterexample: the claim as stated fails.  A Fixed width is
copied without clamping, so a node with min_width 10 and Fixed(5) ends
the fit pass with width 5, below its minimum; and the cross axis
stretch of the grow pass sets a child with max_height 3 to height 68,
above its maximum. -/
theorem c2_clamp_fails :
    (fit_sizing 1 (Node.rect { min_width := 10, sizing := { width := SizingMode.Fixed 5 } } []) =
        some (Node.rect
          { width := 5, min_width := 10, sizing := { width := SizingMode.Fixed 5 } } []) ∧
      ¬ ((10 : Int) ≤ 5)) ∧
    (growLevel { width := 100, height := 100, padding := 16 }
        [Node.rect { height := 3, max_height := some 3, sizing := { height := SizingMode.Grow } } []] =
        some [Node.rect
          { height := 68, max_height := some 3, sizing := { height := SizingMode.Grow } } []] ∧
      ¬ ((68 : Int) ≤ 3)) :=
  ⟨⟨by rfl, by decide⟩, ⟨by rfl, by decide⟩⟩

/-! Lemmas for the fit pass accumulators. -/

theorem fitStep_fold_axis (cg : Int) (axis : Axis) :
    ∀ (cs : List Node) (acc : FitAcc), acc.first = true → acc.gap = cg →
      (cs.foldl (fitStep cg axis) acc).axis_size =
        acc.axis_size + usedSpace cs axis + cg * cs.length
  | [], acc => by
    intro _ _
    simp [usedSpace]
  | c :: rest, acc => by
    intro hfirst hgap
    simp only [List.foldl_cons]
    have hstep : fitStep cg axis acc c =
        { axis_size := acc.axis_size + c.get_size_along_axis axis + cg,
          off_axis_size := max acc.off_axis_size (c.get_size_along_axis axis.flip),
          first := acc.first, gap := acc.gap } := by
      unfold fitStep
      rw [hfirst, hgap]
      simp
    rw [hstep]
    rw [fitStep_fold_axis cg axis rest
      { axis_size := acc.axis_size + c.get_size_along_axis axis + cg,
        off_axis_size := max acc.off_axis_size (c.get_size_along_axis axis.flip),
        first := acc.first, gap := acc.gap } hfirst hgap]
    simp only [usedSpace, List.map_cons, List.sum_cons, List.length_cons]
    push_cast
    ring

theorem fitStep_fold_off (cg : Int) (axis : Axis) :
    ∀ (cs : List Node) (acc : FitAcc),
      (cs.foldl (fitStep cg axis) acc).off_axis_size =
        (cs.map (fun c => c.get_size_along_axis axis.flip)).foldl max acc.off_axis_size
  | [], acc => rfl
  | c :: rest, acc => by
    simp only [List.foldl_cons, List.map_cons]
    rw [fitStep_fold_off cg axis rest _]
    congr 1
    unfold fitStep
    by_cases hfirst : acc.first = false <;> simp [hfirst]

theorem fitAccum_axis (cg : Int) (axis : Axis) (padding : Int) :
    ∀ (cs : List Node), cs ≠ [] →
      (cs.foldl (fitStep cg axis) (fitAcc0 padding)).axis_size =
        2 * padding + usedSpace cs axis + cg * ((cs.length : Int) - 1)
  | [], h => absurd rfl h
  | c :: rest, _ => by
    simp only [List.foldl_cons]
    have hstep : fitStep cg axis (fitAcc0 padding) c =
        { axis_size := 2 * padding + c.get_size_along_axis axis + 0,
          off_axis_size := max 0 (c.get_size_along_axis axis.flip),
          first := true, gap := cg } := by
      unfold fitStep fitAcc0
      simp
    rw [hstep]
    rw [fitStep_fold_axis cg axis rest _ rfl rfl]
    simp only [usedSpace, List.map_cons, List.sum_cons, List.length_cons]
    push_cast
    ring

theorem fitLevel_resolves (d : RectData) (cs : List Node) :
    (fitLevel d cs).get_size_along_axis d.layout_mode.mainAxis =
      resolveSizing (d.get_sizing_along_axis d.layout_mode.mainAxis)
        ((cs.foldl (fitStep d.child_gap d.layout_mode.mainAxis) (fitAcc0 d.padding)).axis_size)
        (d.get_min_along_axis d.layout_mode.mainAxis)
        (d.get_max_along_axis d.layout_mode.mainAxis) ∧
    (fitLevel d cs).get_size_along_axis d.layout_mode.mainAxis.flip =
      resolveSizing (d.get_sizing_along_axis d.layout_mode.mainAxis.flip)
        ((cs.foldl (fitStep d.child_gap d.layout_mode.mainAxis)
          (fitAcc0 d.padding)).off_axis_size + 2 * d.padding)
        (d.get_min_along_axis d.layout_mode.mainAxis.flip)
        (d.get_max_along_axis d.layout_mode.mainAxis.flip) := by
  cases hlm : d.layout_mode <;>
    constructor <;>
      simp [fitLevel, fitResolve, hlm, LayoutMode.mainAxis, Axis.flip,
        RectData.get_size_along_axis, RectData.get_sizing_along_axis,
        RectData.get_min_along_axis, RectData.get_max_along_axis]

/-- C5 amended: after the fit pass on one container, the main axis
accumulator equals 2 * padding plus the sum of the children sizes along
the main axis plus (count - 1) * child_gap when there is at least one
child, and 2 * padding with no gap when there are none; the cross axis
accumulator is the fold of max over the children cross sizes starting
at 0 (not the plain maximum: a negative child size is masked by the 0
start), plus 2 * padding; and the own size on each axis resolves to v
for Fixed(v) and otherwise to the accumulator raised to the minimum and
cut at the maximum when one is set. -/
theorem c5_fit_formula (d : RectData) (cs : List Node) :
    (cs ≠ [] →
      (cs.foldl (fitStep d.child_gap d.layout_mode.mainAxis) (fitAcc0 d.padding)).axis_size =
        2 * d.padding + usedSpace cs d.layout_mode.mainAxis +
          d.child_gap * ((cs.length : Int) - 1)) ∧
    (cs = [] →
      (cs.foldl (fitStep d.child_gap d.layout_mode.mainAxis) (fitAcc0 d.padding)).axis_size =
        2 * d.padding) ∧
    ((cs.foldl (fitStep d.child_gap d.layout_mode.mainAxis) (fitAcc0 d.padding)).off_axis_size =
      (cs.map (fun c => c.get_size_along_axis d.layout_mode.mainAxis.flip)).foldl max 0) ∧
    ((fitLevel d cs).get_size_along_axis d.layout_mode.mainAxis =
      resolveSizing (d.get_sizing_along_axis d.layout_mode.mainAxis)
        ((cs.foldl (fitStep d.child_gap d.layout_mode.mainAxis) (fitAcc0 d.padding)).axis_size)
        (d.get_min_along_axis d.layout_mode.mainAxis)
        (d.get_max_along_axis d.layout_mode.mainAxis)) ∧
    ((fitLevel d cs).get_size_along_axis d.layout_mode.mainAxis.flip =
      resolveSizing (d.get_sizing_along_axis d.layout_mode.mainAxis.flip)
        ((cs.foldl (fitStep d.child_gap d.layout_mode.mainAxis)
          (fitAcc0 d.padding)).off_axis_size + 2 * d.padding)
        (d.get_min_along_axis d.layout_mode.mainAxis.flip)
        (d.get_max_along_axis d.layout_mode.mainAxis.flip)) := by
  obtain ⟨hmain, hcross⟩ := fitLevel_resolves d cs
  refine ⟨fun hne => fitAccum_axis d.child_gap d.layout_mode.mainAxis d.padding cs hne,
    fun he => ?_, ?_, hmain, hcross⟩
  · subst he
    rfl
  · have := fitStep_fold_off d.child_gap d.layout_mode.mainAxis cs (fitAcc0 d.padding)
    simpa [fitAcc0] using this

/-- C5 amended witness at a concrete input with two children. -/
theorem c5_fit_formula_witness :
    (([Node.leaf { width := 4, height := 7 }, Node.leaf { width := 6, height := 2 }]
        : List Node) ≠ []) ∧
    (([Node.leaf { width := 4, height := 7 }, Node.leaf { width := 6, height := 2 }]
        : List Node).foldl
      (fitStep (3 : Int) Axis.Horizontal) (fitAcc0 5)).axis_size = 2 * 5 + (4 + 6) + 3 * 1 := by
  constructor
  · exact List.cons_ne_nil _ _
  · have h := (c5_fit_formula { padding := 5, child_gap := 3 }
      [Node.leaf { width := 4, height := 7 }, Node.leaf { width := 6, height := 2 }]).1
      (List.cons_ne_nil _ _)
    simpa [usedSpace, Node.get_size_along_axis, Node.get_width, LayoutMode.mainAxis] using h

/-- C5 counterexample: the claim as stated fails on a child with a
negative cross size.  The code folds the cross maximum starting at 0,
so a container in LeftToRight mode with min_height -10 and a single
leaf child of min_height -5 resolves to height 0; the claim formula,
maximum child cross size plus 2 * padding then clamped, yields -5. -/
theorem c5_fit_formula_fails :
    fit_sizing 2 (Node.rect { min_height := -10 } [Node.leaf { min_height := -5 }]) =
      some (Node.rect { min_height := -10 } [Node.leaf { height := -5, min_height := -5 }]) ∧
    specCrossAccum 0 Axis.Vertical [Node.leaf { height := -5, min_height := -5 }] =
      some (-5) ∧
    resolveSizing SizingMode.Fit (-5) (-10) none = -5 ∧
    (Node.rect { min_height := -10 }
      [Node.leaf { height := -5, min_height := -5 }] : Node).get_height = 0 ∧
    ¬ ((0 : Int) = -5) := by
  refine ⟨by rfl, by rfl, by decide, by rfl, by decide⟩

/-! The iteration bound of the water filling loop. -/

theorem growLoopSteps_le (d : RectData) (axis : Axis) :
    ∀ (fuel : Nat) (cs : List Node) (gl : List Nat) (r : Int),
      growLoopSteps d axis fuel cs gl r ≤ fuel
  | 0, _, _, _ => Nat.le_refl 0
  | fuel + 1, cs, gl, r => by
    simp only [growLoopSteps]
    split
    · split
      · omega
      · rename_i cs1 gl1 r1 heq
        have := growLoopSteps_le d axis fuel cs1 gl1 r1
        omega
    · omega

/-- C7 amended: the water filling loop always terminates, and executes
at most growable + 1 iterations, where growable is the number of Grow
container children on the main axis at loop entry; the extra iteration
beyond the growable count arises in the zero step degenerate case,
where the defensive depth counter, initialised to growable + 1, is the
binding bound. -/
theorem c7_iteration_bound (d : RectData) (cs : List Node) :
    growLevelSteps d cs ≤
      ((List.range cs.length).filter
        (fun i => growsAlongAt cs i d.layout_mode.mainAxis)).length + 1 := by
  simp only [growLevelSteps]
  exact growLoopSteps_le d d.layout_mode.mainAxis _ cs _ _

/-- C7 counterexample: the claim bound of growable iterations fails.
Two growable children of equal size 10 in a container whose leftover
space is 1 spin with grow_step 1 / 2 = 0: the loop body executes 3
times, one more than the growable count 2. -/
theorem c7_iteration_bound_fails :
    growLevelSteps { width := 21 }
      [Node.rect { width := 10, sizing := { width := SizingMode.Grow } } [],
        Node.rect { width := 10, sizing := { width := SizingMode.Grow } } []] = 3 ∧
    ((List.range 2).filter (fun i => growsAlongAt
      [Node.rect { width := 10, sizing := { width := SizingMode.Grow } } [],
        Node.rect { width := 10, sizing := { width := SizingMode.Grow } } []]
      i Axis.Horizontal)).length = 2 ∧
    ¬ ((3 : Nat) ≤ 2) :=
  ⟨by rfl, by rfl, by decide⟩

/-- C3: the member update of the tied set is new_size equal to the
maximum of size plus grow_step and the minimum, and a child reaching
its maximum is clamped to it; but the removal from the growable set is
executed as grow_list.remove(i) with i the index into the tied list,
not the index of that child in grow_list.  At the first input, child B
at index 1 (size 3, max 4) is the only tied member, so i equals 0 and
the removal evicts child A at index 0 instead of B: A, although
unconstrained and growable with 91 units left, never grows and the pass
ends with A at 5 and B at 4.  At the second input both tied children
clamp in the same iteration and the second remove call is out of
bounds, a panic of Vec::remove (modelled by none). -/
theorem c3_removal_wrong_child :
    growLevel { width := 100 }
      [Node.rect { width := 5, sizing := { width := SizingMode.Grow } } [],
        Node.rect { width := 3, max_width := some 4, sizing := { width := SizingMode.Grow } } []] =
      some [Node.rect { width := 5, sizing := { width := SizingMode.Grow } } [],
        Node.rect
          { width := 4, max_width := some 4, sizing := { width := SizingMode.Grow } } []] ∧
    growLevel { width := 100 }
      [Node.rect { max_width := some 10, sizing := { width := SizingMode.Grow } } [],
        Node.rect { max_width := some 10, sizing := { width := SizingMode.Grow } } []] =
      none :=
  ⟨by rfl, by rfl⟩

/-! The end to end example, staged through literal intermediate trees. -/

theorem grow_sizing_succ_rect (fuel : Nat) (d : RectData) (cs : List Node) :
    grow_sizing (fuel + 1) (Node.rect d cs) =
      (growLevel d cs).bind (fun cs1 =>
        (visitChildren (grow_sizing fuel) cs1).bind (fun cs2 => some (Node.rect d cs2))) :=
  rfl

theorem c4fit : fit_sizing 3 c4root = some c4fitted := by rfl

theorem c4force : grow_root (800, 600) c4fitted = c4forced := by rfl

theorem c4growLevel : growLevel c4forcedD [c4child, c4child, c4child] =
    some [c4grownChild, c4grownChild, c4grownChild] := by rfl

theorem c4grow : grow_sizing 3 c4forced = some c4grown := by
  show grow_sizing (2 + 1) (Node.rect c4forcedD [c4child, c4child, c4child]) = some c4grown
  rw [grow_sizing_succ_rect, c4growLevel]
  rfl

theorem c4pos : set_child_positions 3 c4grown = some c4final := by rfl

theorem c4pipeline : compute_layout 3 (800, 600) c4root = some c4final := by
  unfold compute_layout
  rw [c4fit]
  simp only [Option.bind_eq_bind, Option.some_bind]
  rw [c4force, c4grow]
  simp only [Option.some_bind]
  exact c4pos

/-- C4 amended: for the example (viewport (800, 600), horizontal root
with padding 16 and gap 16, three unconstrained Grow children), after
all passes every child has width 245 (the division 736 / 3 floors to
245 and the leftover unit is never consumed, because the next grow_step
is 1 / 3 = 0), every child has height 568, and the x positions are 16,
277 and 538. -/
theorem c4_example_actual :
    compute_layout 3 (800, 600) c4root = some c4final ∧
    c4final.childrenOf.map Node.get_width = [245, 245, 245] ∧
    c4final.childrenOf.map Node.get_height = [568, 568, 568] ∧
    c4final.childrenOf.map Node.get_position = [(16, 16), (277, 16), (538, 16)] :=
  ⟨c4pipeline, by rfl, by rfl, by rfl⟩

/-- C4 counterexample: the claim as stated fails on the code.  All
three children end at width 245, so there is no floor child at 244 and
no single remainder child, and the x positions are 16, 277, 538, not
16, 276, 536. -/
theorem c4_example_fails :
    (compute_layout 3 (800, 600) c4root).map (fun r => r.childrenOf.map Node.get_width) =
      some [245, 245, 245] ∧
    (compute_layout 3 (800, 600) c4root).map
      (fun r => r.childrenOf.map (fun c => c.get_position.1)) = some [16, 277, 538] ∧
    ¬ (List.count (245 : Int) [245, 245, 245] = 1 ∧
        ([16, 277, 538] : List Int) = [16, 276, 536]) := by
  refine ⟨?_, ?_, ?_⟩
  · rw [c4pipeline]
    rfl
  · rw [c4pipeline]
    rfl
  · intro hcon
    exact absurd hcon.2 (by decide)

/-! Lemmas for grow conservation. -/

theorem usedSpace_set (axis : Axis) :
    ∀ (cs : List Node) (idx : Nat) (c c' : Node), cs.get? idx = some c →
      usedSpace (cs.set idx c') axis =
        usedSpace cs axis - c.get_size_along_axis axis + c'.get_size_along_axis axis
  | [], idx, c, c' => fun h => Option.noConfusion h
  | x :: rest, 0, c, c' => by
    intro h
    cases h
    simp only [List.set_cons_zero, usedSpace, List.map_cons, List.sum_cons]
    ring
  | x :: rest, idx + 1, c, c' => by
    intro h
    rw [List.get?_cons_succ] at h
    simp only [List.set_cons_succ, usedSpace, List.map_cons, List.sum_cons]
    have := usedSpace_set axis rest idx c c' h
    simp only [usedSpace] at this
    rw [this]
    ring

theorem secondSmallestFold_gt (b : Int) :
    ∀ (l : List Int) (acc : Option Int),
      (∀ x ∈ l, b < x) → (∀ a, acc = some a → b < a) →
      ∀ s, l.foldl
        (fun acc size =>
          match acc with
          | some m => some (min size m)
          | none => some size) acc = some s → b < s
  | [], acc => by
    intro _ hacc s h
    exact hacc s h
  | x :: rest, acc => by
    intro hl hacc s h
    simp only [List.foldl_cons] at h
    refine secondSmallestFold_gt b rest _ (fun y hy => hl y (List.mem_cons_of_mem x hy))
      ?_ s h
    intro a ha
    cases hacc2 : acc with
    | none =>
      rw [hacc2] at ha
      cases ha
      exact hl x (List.mem_cons_self x rest)
    | some m =>
      rw [hacc2] at ha
      cases ha
      exact lt_min (hl x (List.mem_cons_self x rest)) (hacc m hacc2)

theorem updateTied_spec (axis : Axis) (step : Int) (hstep : 0 ≤ step) :
    ∀ (tied : List Nat) (i : Nat) (cs : List Node) (gl : List Nat)
      (out : List Node × List Nat),
      updateTied axis step i tied cs gl = some out →
      (∀ c ∈ cs, c.get_min_along_axis axis ≤ c.get_size_along_axis axis) →
      (∀ c ∈ cs, ∀ m, c.get_max_along_axis axis = some m →
        c.get_min_along_axis axis ≤ m) →
      (∀ c ∈ out.1, c.get_min_along_axis axis ≤ c.get_size_along_axis axis) ∧
      (∀ c ∈ out.1, ∀ m, c.get_max_along_axis axis = some m →
        c.get_min_along_axis axis ≤ m) ∧
      out.1.length = cs.length ∧
      usedSpace out.1 axis ≤ usedSpace cs axis + (tied.length : Int) * step
  | [], i, cs, gl, out => by
    intro h hmin hminmax
    simp only [updateTied] at h
    cases h
    refine ⟨hmin, hminmax, rfl, ?_⟩
    simp
  | idx :: rest, i, cs, gl, out => by
    intro h hmin hminmax
    simp only [updateTied] at h
    split at h
    · rename_i hidx
      obtain ⟨h1, h2, h3, h4⟩ := updateTied_spec axis step hstep rest (i + 1) cs gl out h
        hmin hminmax
      refine ⟨h1, h2, h3, le_trans h4 ?_⟩
      have : (0 : Int) ≤ step := hstep
      have hlen : ((rest.length : Int)) ≤ ((idx :: rest).length : Int) := by
        simp only [List.length_cons]
        push_cast
        omega
      nlinarith [Int.natCast_nonneg rest.length]
    · rename_i c hidx
      have hcmem : c ∈ cs := List.get?_mem hidx
      have hcmin : c.get_min_along_axis axis ≤ c.get_size_along_axis axis := hmin c hcmem
      have hnew : max (c.get_size_along_axis axis + step) (c.get_min_along_axis axis) =
          c.get_size_along_axis axis + step := by
        rw [max_eq_left]
        omega
      have hmin1 : ∀ c1 ∈ cs.set idx (c.set_size_along_axis axis
          (max (c.get_size_along_axis axis + step) (c.get_min_along_axis axis))),
          c1.get_min_along_axis axis ≤ c1.get_size_along_axis axis := by
        intro c1 hc1
        rcases List.mem_or_eq_of_mem_set hc1 with hmem | rfl
        · exact hmin c1 hmem
        · rw [get_min_set_size, get_size_set_size_same, hnew]
          omega
      have hminmax1 : ∀ c1 ∈ cs.set idx (c.set_size_along_axis axis
          (max (c.get_size_along_axis axis + step) (c.get_min_along_axis axis))),
          ∀ m, c1.get_max_along_axis axis = some m →
            c1.get_min_along_axis axis ≤ m := by
        intro c1 hc1 m hm
        rcases List.mem_or_eq_of_mem_set hc1 with hmem | rfl
        · exact hminmax c1 hmem m hm
        · rw [get_min_set_size]
          rw [get_max_set_size] at hm
          exact hminmax c hcmem m hm
      have hused1 : usedSpace (cs.set idx (c.set_size_along_axis axis
          (max (c.get_size_along_axis axis + step) (c.get_min_along_axis axis)))) axis =
          usedSpace cs axis + step := by
        rw [usedSpace_set axis cs idx c _ hidx, get_size_set_size_same, hnew]
        ring
      split at h
      · rename_i m hmax
        split at h
        · rename_i hge
          split at h
          · rename_i hlt
            have hidxlt : idx < cs.length := by
              rw [List.get?_eq_getElem?] at hidx
              exact (List.getElem?_eq_some_iff.mp hidx).1
            have hget1 : (cs.set idx (c.set_size_along_axis axis
                (max (c.get_size_along_axis axis + step)
                  (c.get_min_along_axis axis)))).get? idx =
                some (c.set_size_along_axis axis
                  (max (c.get_size_along_axis axis + step)
                    (c.get_min_along_axis axis))) := by
              rw [List.get?_eq_getElem?]
              exact List.getElem?_set_self (by simpa using hidxlt)
            obtain ⟨h1, h2, h3, h4⟩ := updateTied_spec axis step hstep rest (i + 1) _ _ out h
              (by
                intro c1 hc1
                rcases List.mem_or_eq_of_mem_set hc1 with hmem | rfl
                · exact hmin1 c1 hmem
                · rw [get_min_set_size, get_size_set_size_same, get_min_set_size]
                  exact hminmax c hcmem m hmax)
              (by
                intro c1 hc1 m1 hm1
                rcases List.mem_or_eq_of_mem_set hc1 with hmem | rfl
                · exact hminmax1 c1 hmem m1 hm1
                · rw [get_min_set_size, get_min_set_size]
                  rw [get_max_set_size, get_max_set_size] at hm1
                  exact hminmax c hcmem m1 hm1)
            refine ⟨h1, h2, by simpa using h3, ?_⟩
            have husd2 : usedSpace ((cs.set idx (c.set_size_along_axis axis
                (max (c.get_size_along_axis axis + step)
                  (c.get_min_along_axis axis)))).set idx
                ((c.set_size_along_axis axis
                  (max (c.get_size_along_axis axis + step)
                    (c.get_min_along_axis axis))).set_size_along_axis axis m)) axis ≤
                usedSpace cs axis + step := by
              rw [usedSpace_set axis _ idx _ _ hget1]
              rw [get_size_set_size_same, get_size_set_size_same, hused1, hnew]
              rw [hnew] at hge
              omega
            refine le_trans h4 ?_
            have hc : ((rest.length : Int)) + 1 = ((idx :: rest).length : Int) := by
              simp only [List.length_cons]
              push_cast
              ring
            nlinarith [Int.natCast_nonneg rest.length]
          · exact absurd h (by simp)
        · obtain ⟨h1, h2, h3, h4⟩ := updateTied_spec axis step hstep rest (i + 1) _ gl out h
            hmin1 hminmax1
          refine ⟨h1, h2, by simpa using h3, le_trans h4 ?_⟩
          rw [hused1]
          simp only [List.length_cons]
          push_cast
          nlinarith [Int.natCast_nonneg rest.length]
      · obtain ⟨h1, h2, h3, h4⟩ := updateTied_spec axis step hstep rest (i + 1) _ gl out h
          hmin1 hminmax1
        refine ⟨h1, h2, by simpa using h3, le_trans h4 ?_⟩
        rw [hused1]
        simp only [List.length_cons]
        push_cast
        nlinarith [Int.natCast_nonneg rest.length]

theorem growIter_le (d : RectData) (axis : Axis) (cs : List Node) (gl : List Nat)
    (r : Int) (out : List Node × List Nat × Int)
    (h : growIter d axis cs gl r = some out)
    (hr : 0 < r)
    (hlen : 1 ≤ cs.length)
    (hmin : ∀ c ∈ cs, c.get_min_along_axis axis ≤ c.get_size_along_axis axis)
    (hminmax : ∀ c ∈ cs, ∀ m, c.get_max_along_axis axis = some m →
      c.get_min_along_axis axis ≤ m)
    (hrB : r = d.get_size_along_axis axis - d.padding * 2
      - d.child_gap * ((cs.length : Int) - 1) - usedSpace cs axis) :
    (∀ c ∈ out.1, c.get_min_along_axis axis ≤ c.get_size_along_axis axis) ∧
    (∀ c ∈ out.1, ∀ m, c.get_max_along_axis axis = some m →
      c.get_min_along_axis axis ≤ m) ∧
    out.1.length = cs.length ∧
    out.2.2 = d.get_size_along_axis axis - d.padding * 2
      - d.child_gap * ((cs.length : Int) - 1) - usedSpace out.1 axis ∧
    0 ≤ out.2.2 := by
  simp only [growIter] at h
  split at h
  · exact absurd h (by simp)
  · rename_i htied
    have htpos : 0 < ((gl.filter (fun i => sizeAt cs i axis ≤
        (listMin (gl.map (fun i => sizeAt cs i axis))).getD 0)).length : Int) := by
      have := Nat.pos_of_ne_zero htied
      exact_mod_cast this
    have hdiv0 : 0 ≤ Int.tdiv r ((gl.filter (fun i => sizeAt cs i axis ≤
        (listMin (gl.map (fun i => sizeAt cs i axis))).getD 0)).length : Int) :=
      Int.tdiv_nonneg (le_of_lt hr) (le_of_lt htpos)
    have hdivle : ((gl.filter (fun i => sizeAt cs i axis ≤
          (listMin (gl.map (fun i => sizeAt cs i axis))).getD 0)).length : Int) *
        Int.tdiv r ((gl.filter (fun i => sizeAt cs i axis ≤
          (listMin (gl.map (fun i => sizeAt cs i axis))).getD 0)).length : Int) ≤ r := by
      rw [Int.tdiv_eq_ediv (le_of_lt hr) (le_of_lt htpos)]
      rw [mul_comm]
      exact Int.ediv_mul_le r (ne_of_gt htpos)
    have hstep : 0 ≤ (match secondSmallestFold ((gl.filter (fun i => sizeAt cs i axis >
          (listMin (gl.map (fun i => sizeAt cs i axis))).getD 0)).map
          (fun i => sizeAt cs i axis)) with
        | some s => min (s - (listMin (gl.map (fun i => sizeAt cs i axis))).getD 0)
            (Int.tdiv r ((gl.filter (fun i => sizeAt cs i axis ≤
              (listMin (gl.map (fun i => sizeAt cs i axis))).getD 0)).length : Int))
        | none => Int.tdiv r ((gl.filter (fun i => sizeAt cs i axis ≤
            (listMin (gl.map (fun i => sizeAt cs i axis))).getD 0)).length : Int)) ∧
      ((gl.filter (fun i => sizeAt cs i axis ≤
          (listMin (gl.map (fun i => sizeAt cs i axis))).getD 0)).length : Int) *
        (match secondSmallestFold ((gl.filter (fun i => sizeAt cs i axis >
            (listMin (gl.map (fun i => sizeAt cs i axis))).getD 0)).map
            (fun i => sizeAt cs i axis)) with
          | some s => min (s - (listMin (gl.map (fun i => sizeAt cs i axis))).getD 0)
              (Int.tdiv r ((gl.filter (fun i => sizeAt cs i axis ≤
                (listMin (gl.map (fun i => sizeAt cs i axis))).getD 0)).length : Int))
          | none => Int.tdiv r ((gl.filter (fun i => sizeAt cs i axis ≤
              (listMin (gl.map (fun i => sizeAt cs i axis))).getD 0)).length : Int)) ≤ r := by
      cases hsec : secondSmallestFold ((gl.filter (fun i => sizeAt cs i axis >
          (listMin (gl.map (fun i => sizeAt cs i axis))).getD 0)).map
          (fun i => sizeAt cs i axis)) with
      | none =>
        exact ⟨hdiv0, hdivle⟩
      | some s =>
        have hsgt : (listMin (gl.map (fun i => sizeAt cs i axis))).getD 0 < s := by
          refine secondSmallestFold_gt _ _ none ?_ (fun a ha => Option.noConfusion ha) s hsec
          intro x hx
          rw [List.mem_map] at hx
          obtain ⟨j, hj, rfl⟩ := hx
          have := List.mem_filter.mp hj
          simpa using this.2
        constructor
        · exact le_min (by omega) hdiv0
        · calc ((gl.filter (fun i => sizeAt cs i axis ≤
              (listMin (gl.map (fun i => sizeAt cs i axis))).getD 0)).length : Int) *
              min (s - (listMin (gl.map (fun i => sizeAt cs i axis))).getD 0)
                (Int.tdiv r ((gl.filter (fun i => sizeAt cs i axis ≤
                  (listMin (gl.map (fun i => sizeAt cs i axis))).getD 0)).length : Int)) ≤
              ((gl.filter (fun i => sizeAt cs i axis ≤
                (listMin (gl.map (fun i => sizeAt cs i axis))).getD 0)).length : Int) *
              Int.tdiv r ((gl.filter (fun i => sizeAt cs i axis ≤
                (listMin (gl.map (fun i => sizeAt cs i axis))).getD 0)).length : Int) :=
                mul_le_mul_of_nonneg_left (min_le_right _ _) (le_of_lt htpos)
            _ ≤ r := hdivle
    split at h
    · exact absurd h (by simp)
    · rename_i cs1 gl1 hup
      cases h
      obtain ⟨h1, h2, h3, h4⟩ := updateTied_spec axis _ hstep.1 _ 0 cs gl (cs1, gl1) hup
        hmin hminmax
      have h3a : cs1.length = cs.length := h3
      have h4a : usedSpace cs1 axis ≤ usedSpace cs axis +
          ((gl.filter (fun i => sizeAt cs i axis ≤
            (listMin (gl.map (fun i => sizeAt cs i axis))).getD 0)).length : Int) *
          (match secondSmallestFold ((gl.filter (fun i => sizeAt cs i axis >
              (listMin (gl.map (fun i => sizeAt cs i axis))).getD 0)).map
              (fun i => sizeAt cs i axis)) with
            | some s => min (s - (listMin (gl.map (fun i => sizeAt cs i axis))).getD 0)
                (Int.tdiv r ((gl.filter (fun i => sizeAt cs i axis ≤
                  (listMin (gl.map (fun i => sizeAt cs i axis))).getD 0)).length : Int))
            | none => Int.tdiv r ((gl.filter (fun i => sizeAt cs i axis ≤
                (listMin (gl.map (fun i => sizeAt cs i axis))).getD 0)).length : Int)) := h4
      have hused : usedSpace cs1 axis ≤ usedSpace cs axis + r :=
        le_trans h4a (by linarith [hstep.2])
      have hmax1 : max ((cs.length : Int) - 1) 0 = (cs.length : Int) - 1 := by
        rw [max_eq_left]
        omega
      refine ⟨h1, h2, h3a, ?_, ?_⟩
      · show d.get_size_along_axis axis - d.padding * 2
            - d.child_gap * (max ((cs1.length : Int) - 1) 0) - usedSpace cs1 axis =
          d.get_size_along_axis axis - d.padding * 2
            - d.child_gap * ((cs.length : Int) - 1) - usedSpace cs1 axis
        rw [h3a, hmax1]
      · show 0 ≤ d.get_size_along_axis axis - d.padding * 2
            - d.child_gap * (max ((cs1.length : Int) - 1) 0) - usedSpace cs1 axis
        rw [h3a, hmax1]
        omega

theorem growLoop_le (d : RectData) (axis : Axis) :
    ∀ (fuel : Nat) (cs : List Node) (gl : List Nat) (r : Int)
      (out : List Node × List Nat × Int),
      growLoop d axis fuel cs gl r = some out →
      1 ≤ cs.length →
      (∀ c ∈ cs, c.get_min_along_axis axis ≤ c.get_size_along_axis axis) →
      (∀ c ∈ cs, ∀ m, c.get_max_along_axis axis = some m →
        c.get_min_along_axis axis ≤ m) →
      r = d.get_size_along_axis axis - d.padding * 2
        - d.child_gap * ((cs.length : Int) - 1) - usedSpace cs axis →
      0 ≤ r →
      out.1.length = cs.length ∧
      usedSpace out.1 axis ≤ d.get_size_along_axis axis - d.padding * 2
        - d.child_gap * ((cs.length : Int) - 1)
  | 0, cs, gl, r, out => by
    intro h hlen hmin hminmax hrB hr0
    simp only [growLoop] at h
    cases h
    refine ⟨rfl, ?_⟩
    show usedSpace cs axis ≤ _
    omega
  | fuel + 1, cs, gl, r, out => by
    intro h hlen hmin hminmax hrB hr0
    simp only [growLoop] at h
    split at h
    · rename_i hguard
      split at h
      · exact absurd h (by simp)
      · rename_i cs1 gl1 r1 hit
        obtain ⟨g1, g2, g3, g4, g5⟩ := growIter_le d axis cs gl r (cs1, gl1, r1) hit
          hguard.1 hlen hmin hminmax hrB
        have g3a : cs1.length = cs.length := g3
        have g1a : ∀ c ∈ cs1, c.get_min_along_axis axis ≤ c.get_size_along_axis axis := g1
        have g2a : ∀ c ∈ cs1, ∀ m, c.get_max_along_axis axis = some m →
            c.get_min_along_axis axis ≤ m := g2
        have g4a : r1 = d.get_size_along_axis axis - d.padding * 2
            - d.child_gap * ((cs.length : Int) - 1) - usedSpace cs1 axis := g4
        have g5a : (0 : Int) ≤ r1 := g5
        obtain ⟨o1, o2⟩ := growLoop_le d axis fuel cs1 gl1 r1 out h
          (by omega) g1a g2a (by rw [g3a]; exact g4a) g5a
        rw [g3a] at o1 o2
        exact ⟨o1, o2⟩
    · cases h
      refine ⟨rfl, ?_⟩
      show usedSpace cs axis ≤ _
      omega

theorem usedSpace_setSizeAt_flip (cs : List Node) (i : Nat) (axis : Axis) (v : Int) :
    usedSpace (setSizeAt cs i axis.flip v) axis = usedSpace cs axis := by
  unfold setSizeAt
  cases hi : cs.get? i with
  | none => rfl
  | some c =>
    rw [usedSpace_set axis cs i c _ hi,
      get_size_set_size_other c axis.flip axis v (flip_ne axis)]
    ring

theorem usedSpace_foldl_setSize_flip (axis : Axis) (v : Int) :
    ∀ (idxs : List Nat) (cs : List Node),
      usedSpace (idxs.foldl (fun acc i => setSizeAt acc i axis.flip v) cs) axis =
        usedSpace cs axis
  | [], cs => rfl
  | i :: rest, cs => by
    simp only [List.foldl_cons]
    rw [usedSpace_foldl_setSize_flip axis v rest _, usedSpace_setSizeAt_flip]

/-- C1 amended: for every container with at least one growable child,
nonnegative remaining space before growth, every child at least its
minimum on the main axis and coherent bounds, the sum of the children
main axis sizes after the grow pass is AT MOST container.size(main)
minus 2 * padding minus (n - 1) * child_gap; equality can fail by the
integer division remainder even when no growable child is max-clamped. -/
theorem c1_grow_conservation_le (d : RectData) (cs cs1 : List Node)
    (hrun : growLevel d cs = some cs1)
    (hgrow : (List.range cs.length).filter
      (fun i => growsAlongAt cs i d.layout_mode.mainAxis) ≠ [])
    (hrem : 0 ≤ d.get_size_along_axis d.layout_mode.mainAxis - d.padding * 2
      - d.child_gap * ((cs.length : Int) - 1) - usedSpace cs d.layout_mode.mainAxis)
    (hmin : ∀ c ∈ cs, c.get_min_along_axis d.layout_mode.mainAxis ≤
      c.get_size_along_axis d.layout_mode.mainAxis)
    (hminmax : ∀ c ∈ cs, ∀ m, c.get_max_along_axis d.layout_mode.mainAxis = some m →
      c.get_min_along_axis d.layout_mode.mainAxis ≤ m) :
    usedSpace cs1 d.layout_mode.mainAxis ≤
      d.get_size_along_axis d.layout_mode.mainAxis - d.padding * 2
        - d.child_gap * ((cs.length : Int) - 1) := by
  have hlen : 1 ≤ cs.length := by
    obtain ⟨j, hj⟩ := List.exists_mem_of_ne_nil _ hgrow
    have := List.mem_range.mp (List.mem_filter.mp hj).1
    omega
  simp only [growLevel] at hrun
  split at hrun
  · exact absurd hrun (by simp)
  · rename_i csA glA rA hloop
    obtain ⟨o1, o2⟩ := growLoop_le d d.layout_mode.mainAxis _ cs _ _ (csA, glA, rA)
      hloop hlen hmin hminmax rfl hrem
    cases hrun
    rw [usedSpace_foldl_setSize_flip]
    exact o2

/-- C1 amended witness at a concrete input: one growable child, the
container hands it all 10 units and the sum meets the bound exactly. -/
theorem c1_grow_conservation_le_witness :
    growLevel { width := 10 }
        [Node.rect { sizing := { width := SizingMode.Grow } } []] =
      some [Node.rect { width := 10, sizing := { width := SizingMode.Grow } } []] ∧
    usedSpace [Node.rect { width := 10, sizing := { width := SizingMode.Grow } } []]
      Axis.Horizontal ≤ (10 : Int) - 0 * 2 - 0 * ((1 : Int) - 1) := by
  constructor
  · rfl
  · exact c1_grow_conservation_le { width := 10 }
      [Node.rect { sizing := { width := SizingMode.Grow } } []]
      [Node.rect { width := 10, sizing := { width := SizingMode.Grow } } []]
      (by rfl) (by decide) (by decide)
      (by
        intro c hc
        rw [List.mem_singleton] at hc
        subst hc
        decide)
      (by
        intro c hc m hm
        rw [List.mem_singleton] at hc
        subst hc
        exact Option.noConfusion hm)

/-- C1 counterexample: the claim as stated fails.  Three growable
children with no max and sizes 0 in a container with 4 units of
remaining space receive 4 / 3 = 1 each; the next step is 1 / 3 = 0, so
the loop spins without distributing the last unit and the sum is 3,
strictly below the bound 4, although a non max-clamped growable child
exists and remaining was nonnegative before growth. -/
theorem c1_grow_conservation_fails :
    growLevel { width := 4 }
        [Node.rect { sizing := { width := SizingMode.Grow } } [],
          Node.rect { sizing := { width := SizingMode.Grow } } [],
          Node.rect { sizing := { width := SizingMode.Grow } } []] =
      some [Node.rect { width := 1, sizing := { width := SizingMode.Grow } } [],
        Node.rect { width := 1, sizing := { width := SizingMode.Grow } } [],
        Node.rect { width := 1, sizing := { width := SizingMode.Grow } } []] ∧
    usedSpace [Node.rect { width := 1, sizing := { width := SizingMode.Grow } } [],
      Node.rect { width := 1, sizing := { width := SizingMode.Grow } } [],
      Node.rect { width := 1, sizing := { width := SizingMode.Grow } } []]
      Axis.Horizontal = 3 ∧
    ¬ ((3 : Int) = 4 - 0 * 2 - 0 * ((3 : Int) - 1)) :=
  ⟨by rfl, by rfl, by decide⟩

/-- C9: UI::compute_layout runs the fit pass, then forces the root,
then the grow pass, then the position pass; and between fit and grow,
grow_root overwrites the root size with the viewport dimension exactly
on the axes whose own sizing mode is Grow, leaving the size on any
other axis unchanged. -/
theorem c9_root_forcing :
    (∀ (fuel : Nat) (viewport : Int × Int) (root : Node),
      compute_layout fuel viewport root =
        (fit_sizing fuel root).bind (fun r1 =>
          (grow_sizing fuel (grow_root viewport r1)).bind (set_child_positions fuel))) ∧
    (∀ (viewport : Int × Int) (d : RectData) (cs : List Node),
      grow_root viewport (.rect d cs) =
        .rect { d with
            width := if d.sizing.width = SizingMode.Grow then viewport.1 else d.width,
            height := if d.sizing.height = SizingMode.Grow then viewport.2 else d.height } cs) := by
  constructor
  · intro fuel v root
    rfl
  · intro v d cs
    cases hw : d.sizing.width <;> cases hh : d.sizing.height <;>
      simp [grow_root, hw, hh]

end Teacup
